import Mathlib

/-!
# Halal-AI-Scanner — formal model of the client-side scan pipeline

A shallow embedding of the scan pipeline of the Halal scanner app:

* the quota-gated analyze flow (`handleAnalyze` / `handleAnalyzeText` in the
  main App component),
* the bounded history store (`saveToHistory`),
* the legacy-history migration performed on `load`,
* the image preprocessing helpers of `geminiService.ts`
  (`downscaleImageIfNeeded`, `enhanceImage`),
* the capture lock of `useCamera.ts` (`captureImage`),
* the synthetic-progress timer driven during the Sending phase,
* the obfuscated local storage layer (`secureStorage.ts`).

Machine pixel values are modelled as `ℕ` clamped to `[0, 255]`; fractional
pixel arithmetic (JS `number`) is modelled over `ℚ`; JS `Math.round` is
`⌊q + 1/2⌋`; `Uint8ClampedArray` stores round to nearest with ties to even
after clamping, as WebIDL specifies.
-/

/-! ## Data model (types.ts) -/

/-- The classification statuses of the app (enum `HalalStatus`). -/
inductive HalalStatus : Type
  | HALAL
  | HARAM
  | DOUBTFUL
  | NON_FOOD
deriving DecidableEq, Repr

/-- One detected ingredient with its own status (`IngredientDetail`). -/
structure IngredientDetail : Type where
  name : String
  status : HalalStatus
deriving DecidableEq, Repr

/-- The persisted `ingredientsDetected` field.  Old records stored a plain
list of name strings (`legacy`); current records store per-ingredient
details (`modern`).  The JS code distinguishes the two with
`typeof item.result.ingredientsDetected[0] === 'string'`. -/
inductive IngredientsField : Type
  | legacy (names : List String)
  | modern (items : List IngredientDetail)
deriving DecidableEq, Repr

/-- A scan result (`ScanResult`): status, user-facing reason, detected
ingredients and a confidence score in `[0, 100]` where `0` is the sentinel
for "this is an error, not a classification". -/
structure ScanResult : Type where
  status : HalalStatus
  reason : String
  ingredientsDetected : IngredientsField
  confidence : ℕ
deriving DecidableEq, Repr

/-- A history entry (`ScanHistoryItem`): id and date both derive from
`Date.now()` at creation time, plus the result and an optional thumbnail. -/
structure ScanHistoryItem : Type where
  id : String
  date : ℕ
  result : ScanResult
  thumbnail : Option String
deriving DecidableEq, Repr

/-! ## HistoryStore (`saveToHistory` in the App component)

```js
const saveToHistory = (scanResult, thumbnail?) => {
   const newItem = { id: Date.now().toString(), date: Date.now(),
                     result: scanResult, thumbnail };
   const updatedHistory = [newItem, ...history].slice(0, 30); // Keep last 30
   setHistory(updatedHistory);
   try { localStorage.setItem('halalScannerHistory', JSON.stringify(updatedHistory)); }
   catch (e) {
      if (thumbnail) {
         const fallbackItem = { ...newItem, thumbnail: undefined };
         const fallbackHistory = [fallbackItem, ...history].slice(0, 30);
         setHistory(fallbackHistory);
         try { localStorage.setItem(...) } catch (e2) { }
      }
   }
};
```

`storeOk` models whether the first `localStorage.setItem` succeeds; the
returned list is the in-memory `history` state after the call. -/

/-- The new item `saveToHistory` builds from a result and optional thumbnail. -/
def mkHistoryItem (now : ℕ) (scanResult : ScanResult) (thumbnail : Option String) :
    ScanHistoryItem :=
  { id := toString now, date := now, result := scanResult, thumbnail := thumbnail }

/-- Function `saveToHistory`: prepend the new item, keep the first 30 entries; on a
storage-write failure with a thumbnail present, fall back to the same list
with the thumbnail stripped from the new item. -/
def saveToHistory (history : List ScanHistoryItem) (scanResult : ScanResult)
    (thumbnail : Option String) (now : ℕ) (storeOk : Bool) : List ScanHistoryItem :=
  let newItem := mkHistoryItem now scanResult thumbnail
  let updatedHistory := (newItem :: history).take 30
  if storeOk then
    updatedHistory
  else
    match thumbnail with
    | some _ =>
        let fallbackItem := { newItem with thumbnail := none }
        (fallbackItem :: history).take 30
    | none => updatedHistory

/-! ## Legacy-history migration (App history-load effect)

```js
const migratedHistory = parsedHistory.map((item) => {
     if (item.result?.ingredientsDetected?.length > 0
         && typeof item.result.ingredientsDetected[0] === 'string') {
         item.result.ingredientsDetected =
            item.result.ingredientsDetected.map((name) =>
               ({ name: name, status: HalalStatus.HALAL }));
     }
     return item;
});
``` -/

/-- Migration of one stored item: a non-empty legacy name list becomes a
modern list whose entries all carry status `HALAL`; everything else is
returned untouched. -/
def migrateItem (item : ScanHistoryItem) : ScanHistoryItem :=
  match item.result.ingredientsDetected with
  | IngredientsField.legacy names =>
      if names.length > 0 then
        let migrated := IngredientsField.modern (names.map fun n => ⟨n, HalalStatus.HALAL⟩)
        { item with result := { item.result with ingredientsDetected := migrated } }
      else item
  | IngredientsField.modern _ => item

/-- The `load` migration maps `migrateItem` over the parsed history. -/
def migrateHistory (parsedHistory : List ScanHistoryItem) : List ScanHistoryItem :=
  parsedHistory.map migrateItem

/-! ## String helpers (JS `String.prototype.includes` / `toLowerCase`) -/

/-- Does the pattern (first list) begin the text (second list)? -/
def charsHaveStart : List Char → List Char → Bool
  | [], _ => true
  | _ :: _, [] => false
  | p :: ps, c :: cs => p == c && charsHaveStart ps cs

/-- Does the pattern occur anywhere in the text? -/
def charsHaveSub (pat : List Char) : List Char → Bool
  | [] => charsHaveStart pat []
  | c :: cs => charsHaveStart pat (c :: cs) || charsHaveSub pat cs

/-- JS `s.includes(pat)`. -/
def strIncludes (s pat : String) : Bool := charsHaveSub pat.toList s.toList

/-- JS `s.toLowerCase()` (per-character lowering suffices for the ASCII
keywords the app tests for). -/
def lowerStr (s : String) : String := String.mk (s.toList.map Char.toLower)

/-! ## App state and the analyze flow (`handleAnalyze`, `handleAnalyzeText`)

The relevant React state of the `App` component, with the collaborators
(`analyzeImage` / `analyzeText` network call, the Supabase `user_stats`
fetch, thumbnail compression, storage success) supplied as an explicit
environment.  `networkCalls` counts invocations of the classification
endpoint during one attempt; `quotaRefreshes` counts invocations of
`fetchUserStats`. -/

/-- Constant `FREE_SCANS_LIMIT = 20` of the App component. -/
def FREE_SCANS_LIMIT : ℕ := 20

/-- The App-component state touched by the analyze flow. -/
structure AppState : Type where
  userId : Option String
  isPremium : Bool
  scanCount : ℕ
  images : List String
  history : List ScanHistoryItem
  result : Option ScanResult
  error : Option String
  isLoading : Bool
  useLowQuality : Bool
  showSubscriptionModal : Bool
deriving DecidableEq, Repr

/-- The client-side quota gate: `!isPremium && scanCount >= FREE_SCANS_LIMIT`
(the exact guard of `handleAnalyze`, `handleAnalyzeText` and `openCamera`). -/
def quotaGateBlocks (s : AppState) : Bool :=
  !s.isPremium && decide (FREE_SCANS_LIMIT ≤ s.scanCount)

/-- The spec's `canScan()`: the negation of the quota gate. -/
def canScan (s : AppState) : Bool := !quotaGateBlocks s

/-- Outcome of the `user_stats` select in `fetchUserStats`:
a row, the `PGRST116` no-row error, or any other failure. -/
inductive StatsResponse : Type
  | data (scan_count : ℕ) (is_premium : Bool)
  | noRow
  | failure
deriving DecidableEq, Repr

/-- Function `fetchUserStats`: a data row overwrites `scanCount` and `isPremium`;
the `PGRST116` no-row error resets `scanCount` to 0; any other error
leaves the state alone. -/
def fetchUserStats (s : AppState) : StatsResponse → AppState
  | StatsResponse.data c p => { s with scanCount := c, isPremium := p }
  | StatsResponse.noRow => { s with scanCount := 0 }
  | StatsResponse.failure => s

/-- Outcome of the awaited `analyzeImage` / `analyzeText` call:
a resolved `ScanResult` or a thrown error with its message. -/
inductive NetResponse : Type
  | ok (r : ScanResult)
  | threw (msg : String)
deriving DecidableEq, Repr

/-- The environment of one analyze attempt: the network outcome, the
`user_stats` fetch outcome, the thumbnail compression outcome (`none`
models the rejected promise handled by `.catch`), whether
`localStorage.setItem` succeeds, and `Date.now()`. -/
structure AnalyzeEnv : Type where
  response : NetResponse
  stats : StatsResponse
  thumb : Option String
  storeOk : Bool
  now : ℕ
deriving DecidableEq, Repr

/-- Result of one analyze attempt: the final component state plus counters
for the two externally observable side-channels. -/
structure AnalyzeEffects : Type where
  state : AppState
  networkCalls : ℕ
  quotaRefreshes : ℕ
deriving DecidableEq, Repr

/-- The `catch` block of `handleAnalyze`: lower-case the message, map
`limit_reached` to the subscription modal, `network`/`fetch` to the
connection error, `413`/`rpc` to the low-quality downgrade. -/
def handleAnalyzeCatch (s : AppState) (msg : String) : AppState :=
  let m := lowerStr msg
  if strIncludes m "limit_reached" then
    { s with showSubscriptionModal := true, error := some "t.limitReachedError" }
  else if strIncludes m "network" || strIncludes m "fetch" then
    { s with error := some "t.connectionError" }
  else if strIncludes m "413" || strIncludes m "rpc" then
    { s with useLowQuality := true, error := some "t.imageTooLarge" }
  else
    { s with error := some "t.unexpectedError" }

/-- Function `handleAnalyze`: preflight quota gate (no network call on rejection),
empty-image guard, then the single `analyzeImage` call; a result with
`confidence === 0` only surfaces its reason as the error (plus the
low-quality hint), while a real result refreshes the quota
(`fetchUserStats` when signed in, local increment otherwise) and is
appended to the history with the compressed thumbnail. -/
def handleAnalyze (s : AppState) (env : AnalyzeEnv) : AnalyzeEffects :=
  if quotaGateBlocks s then
    ⟨{ s with showSubscriptionModal := true }, 0, 0⟩
  else if s.images.length = 0 then
    ⟨s, 0, 0⟩
  else
    let s1 := { s with isLoading := true, error := none }
    match env.response with
    | NetResponse.ok r =>
        if r.confidence = 0 then
          let lowQ := strIncludes r.reason "image size" || strIncludes r.reason "حجم الصورة"
          ⟨{ s1 with useLowQuality := if lowQ then true else s1.useLowQuality,
                     error := some r.reason, isLoading := false }, 1, 0⟩
        else
          let s2 := match s.userId with
            | some _ => fetchUserStats s1 env.stats
            | none => { s1 with scanCount := s1.scanCount + 1 }
          ⟨{ s2 with result := some r,
                     history := saveToHistory s2.history r env.thumb env.now env.storeOk,
                     isLoading := false }, 1, if s.userId.isSome then 1 else 0⟩
    | NetResponse.threw msg =>
        ⟨{ handleAnalyzeCatch s1 msg with isLoading := false }, 1, 0⟩

/-- Function `handleAnalyzeText`: same gate and response classification as
`handleAnalyze`, but clears images and any previous result up front,
saves without a thumbnail, and its `catch` only tests for
`LIMIT_REACHED` (un-lowercased). -/
def handleAnalyzeText (s : AppState) (env : AnalyzeEnv) : AnalyzeEffects :=
  if quotaGateBlocks s then
    ⟨{ s with showSubscriptionModal := true }, 0, 0⟩
  else
    let s1 := { s with isLoading := true, error := none, result := none, images := [] }
    match env.response with
    | NetResponse.ok r =>
        if r.confidence = 0 then
          ⟨{ s1 with error := some r.reason, isLoading := false }, 1, 0⟩
        else
          let s2 := match s.userId with
            | some _ => fetchUserStats s1 env.stats
            | none => { s1 with scanCount := s1.scanCount + 1 }
          ⟨{ s2 with result := some r,
                     history := saveToHistory s2.history r none env.now env.storeOk,
                     isLoading := false }, 1, if s.userId.isSome then 1 else 0⟩
    | NetResponse.threw msg =>
        if strIncludes msg "LIMIT_REACHED" then
          ⟨{ s1 with showSubscriptionModal := true, error := some "t.limitReachedError",
                     isLoading := false }, 1, 0⟩
        else
          ⟨{ s1 with error := some "t.unexpectedError", isLoading := false }, 1, 0⟩

/-! ## Capture lock (`captureImage` in `useCamera.ts`)

```js
const captureImage = useCallback((onCapture, shouldClose = true) => {
    if (isCapturing) return;
    if (videoRef.current && videoRef.current.readyState >= HAVE_CURRENT_DATA) {
      setIsCapturing(true);
      setTimeout(() => {
        const context = canvas.getContext('2d');
        if (context) {
          ...
          onCapture(imageDataUrl);
          if (shouldClose) { /* leave cleanup to unmount */ }
          else { setIsCapturing(false); }
        } else { setIsCapturing(false); }
      }, 100);
    }
}, ...);
``` -/

/-- The capture-lock state of one `useCamera` session. -/
structure CaptureState : Type where
  isCapturing : Bool
deriving DecidableEq, Repr

/-- One `captureImage` call, run to the completion of its deferred body.
`videoReady` models the `readyState` guard, `ctxOk` whether
`canvas.getContext('2d')` returns a context, `shouldClose` the mode
(`true` = capture-and-close, `false` = capture-and-hold).  Returns the
final lock state and whether `onCapture` delivered an image. -/
def captureImage (s : CaptureState) (videoReady : Bool) (ctxOk : Bool)
    (shouldClose : Bool) : CaptureState × Bool :=
  if s.isCapturing then
    (s, false)
  else if videoReady then
    if ctxOk then
      ({ isCapturing := shouldClose }, true)
    else
      ({ isCapturing := false }, false)
  else
    (s, false)

/-! ## Synthetic progress during the Sending phase (`handleAnalyze`)

The `Sending` phase starts with `setProgress(40)` and an interval started
with `progressInterval.current = setInterval(...)`; each tick runs
`setProgress(prev => prev >= 90 ? (clearInterval, 90) : prev + 2)`.
When the awaited response arrives the code clears the interval and sets
progress to 100; the `catch` block clears the interval but does not touch
progress; `resetApp` clears the interval and sets progress to 0. -/

/-- Progress value plus whether the repeating timer is still scheduled. -/
structure ProgressState : Type where
  progress : ℕ
  timerActive : Bool
deriving DecidableEq, Repr

/-- The observable events acting on the progress state:
a timer tick, response arrival, the `catch` path, and `resetApp`. -/
inductive ProgressEvent : Type
  | tick
  | respond
  | fail
  | reset
deriving DecidableEq, Repr

/-- State entered right after `setProgress(40)` and `setInterval`. -/
def sendingInit : ProgressState := { progress := 40, timerActive := true }

/-- One event step, straight from the four code paths quoted above. -/
def progressStep (s : ProgressState) : ProgressEvent → ProgressState
  | ProgressEvent.tick =>
      if s.timerActive then
        if s.progress ≥ 90 then { progress := 90, timerActive := false }
        else { progress := s.progress + 2, timerActive := true }
      else s
  | ProgressEvent.respond => { progress := 100, timerActive := false }
  | ProgressEvent.fail => { progress := s.progress, timerActive := false }
  | ProgressEvent.reset => { progress := 0, timerActive := false }

/-- Run a sequence of events. -/
def runProgress (s : ProgressState) (evs : List ProgressEvent) : ProgressState :=
  evs.foldl progressStep s

/-! ## Obfuscated local storage (`secureStorage.ts`)

```js
const SALT = "HALAL_SCAN_SECURE_";
export const secureStorage = {
  setItem: (key, value) => {
    try {
      const stringValue = JSON.stringify(value);
      const encoded = btoa(encodeURIComponent(stringValue));
      localStorage.setItem(`${SALT}${key}`, encoded);
    } catch (e) { }
  },
  getItem: (key, defaultValue) => {
    try {
      const item = localStorage.getItem(`${SALT}${key}`);
      if (!item) return defaultValue;
      const decoded = decodeURIComponent(atob(item));
      return JSON.parse(decoded);
    } catch (e) { return defaultValue; }
  },
  removeItem: (key) => { localStorage.removeItem(`${SALT}${key}`); }
};
```

`localStorage` is modelled as an association list; the browser built-ins
`JSON.stringify`/`JSON.parse` and `btoa ∘ encodeURIComponent` /
`decodeURIComponent ∘ atob` are platform primitives, modelled abstractly by
a codec record whose standard inverse laws are explicit hypotheses of the
round-trip theorem (a throwing decode/parse is an `Option` failure). -/

/-- The obfuscation salt. -/
def SALT : String := "HALAL_SCAN_SECURE_"

/-- The browser `localStorage` key-value store. -/
def LocalStore : Type := List (String × String)

/-- Browser `localStorage.getItem`. -/
def lsGet (st : LocalStore) (k : String) : Option String :=
  (List.find? (fun p => p.1 == k) st).map (fun p => p.2)

/-- Browser `localStorage.removeItem`. -/
def lsRemove (st : LocalStore) (k : String) : LocalStore :=
  List.filter (fun p => !(p.1 == k)) st

/-- Browser `localStorage.setItem`. -/
def lsSet (st : LocalStore) (k v : String) : LocalStore :=
  (k, v) :: lsRemove st k

/-- The platform primitives `secureStorage` is built on, for a
JSON-serializable value type `J`: `stringify`/`parse` model `JSON`, and
`obfuscate`/`deobfuscate` model `btoa(encodeURIComponent ·)` and
`decodeURIComponent(atob ·)`; a `none` models a thrown exception. -/
structure BrowserCodec (J : Type) : Type where
  stringifyJson : J → String
  parseJson : String → Option J
  obfuscate : String → String
  deobfuscate : String → Option String

/-- Function `secureStorage.setItem`. -/
def secureSetItem {J : Type} (c : BrowserCodec J) (st : LocalStore) (key : String)
    (value : J) : LocalStore :=
  lsSet st (SALT ++ key) (c.obfuscate (c.stringifyJson value))

/-- Function `secureStorage.getItem`: default on a missing key and on any decode or
parse failure (the `catch` branch). -/
def secureGetItem {J : Type} (c : BrowserCodec J) (st : LocalStore) (key : String)
    (defaultValue : J) : J :=
  match lsGet st (SALT ++ key) with
  | none => defaultValue
  | some item =>
      match c.deobfuscate item with
      | none => defaultValue
      | some decoded =>
          match c.parseJson decoded with
          | none => defaultValue
          | some v => v

/-- Function `secureStorage.removeItem`. -/
def secureRemoveItem (st : LocalStore) (key : String) : LocalStore :=
  lsRemove st (SALT ++ key)

/-! ## `downscaleImageIfNeeded` (`geminiService.ts`)

```js
const downscaleImageIfNeeded = (base64Str, maxWidth, maxHeight) => {
  ...
  if (width <= maxWidth && height <= maxHeight) { resolve(base64Str); return; }
  const ratio = Math.min(maxWidth / width, maxHeight / height);
  newWidth = Math.round(width * ratio);
  newHeight = Math.round(height * ratio);
  canvas.width = newWidth; canvas.height = newHeight;
  ctx.drawImage(img, 0, 0, newWidth, newHeight);
  resolve(canvas.toDataURL('image/jpeg', 0.9));
};
```

An image is its pixel dimensions plus its encoded bytes; the canvas
re-encode (`drawImage` + `toDataURL`, a browser primitive) is abstracted as
an `encode` function of the new dimensions. -/

/-- An encoded image: pixel dimensions plus encoded payload bytes. -/
structure Img : Type where
  width : ℕ
  height : ℕ
  data : List ℕ
deriving DecidableEq, Repr

/-- JS `Math.round`: round half away from zero toward +∞, i.e. `⌊q + 1/2⌋`. -/
def jsRound (q : ℚ) : ℤ := ⌊q + 1 / 2⌋

/-- The line `const ratio = Math.min(maxWidth / width, maxHeight / height)`. -/
def downscaleFactor (img : Img) (maxWidth maxHeight : ℕ) : ℚ :=
  min ((maxWidth : ℚ) / (img.width : ℚ)) ((maxHeight : ℚ) / (img.height : ℚ))

/-- The line `newWidth = Math.round(width * ratio)`. -/
def downscaledWidth (img : Img) (maxWidth maxHeight : ℕ) : ℕ :=
  (jsRound ((img.width : ℚ) * downscaleFactor img maxWidth maxHeight)).toNat

/-- The line `newHeight = Math.round(height * ratio)`. -/
def downscaledHeight (img : Img) (maxWidth maxHeight : ℕ) : ℕ :=
  (jsRound ((img.height : ℚ) * downscaleFactor img maxWidth maxHeight)).toNat

/-- Function `downscaleImageIfNeeded`: identity when both dimensions fit, otherwise
scale by `min(maxWidth/width, maxHeight/height)` with `Math.round` on each
dimension and re-encode. -/
def downscaleImageIfNeeded (encode : ℕ → ℕ → List ℕ) (img : Img)
    (maxWidth maxHeight : ℕ) : Img :=
  if img.width ≤ maxWidth ∧ img.height ≤ maxHeight then
    img
  else
    { width := downscaledWidth img maxWidth maxHeight,
      height := downscaledHeight img maxWidth maxHeight,
      data := encode (downscaledWidth img maxWidth maxHeight)
        (downscaledHeight img maxWidth maxHeight) }

/-! ## `enhanceImage` (`geminiService.ts`)

```js
const enhanceImage = (base64Str) => {
  ...
  canvas.width = img.width; canvas.height = img.height;
  ctx.drawImage(img, 0, 0);
  const imageData = ctx.getImageData(0, 0, canvas.width, canvas.height);
  const data = imageData.data;            // Uint8ClampedArray, RGBA
  const contrast = 1.25;
  for (let i = 0; i < data.length; i += 4) {
    data[i]   = ((data[i]   - 128) * contrast) + 128;
    data[i+1] = ((data[i+1] - 128) * contrast) + 128;
    data[i+2] = ((data[i+2] - 128) * contrast) + 128;
  }
  const inputBuffer = new Uint8ClampedArray(data);
  for (let y = 1; y < h - 1; y++)
    for (let x = 1; x < w - 1; x++) {
      const idx = (y * w + x) * 4;
      for (let c = 0; c < 3; c++) {
        const val = (inputBuffer[idx + c] * 5)
          - inputBuffer[idx + c - 4] - inputBuffer[idx + c + 4]
          - inputBuffer[idx + c - w * 4] - inputBuffer[idx + c + w * 4];
        data[idx + c] = val;               // clamped by Uint8ClampedArray
      }
    }
  ctx.putImageData(imageData, 0, 0);
  resolve(canvas.toDataURL('image/jpeg', 0.9));
};
```

The decoded pixel buffer is modelled as a flat RGBA byte function; storing
into a `Uint8ClampedArray` clamps to `[0, 255]` and rounds to nearest with
ties to even. -/

/-- Round to nearest integer, ties to even (the `Uint8ClampedArray`
conversion of WebIDL). -/
def rne (q : ℚ) : ℤ :=
  if q - (⌊q⌋ : ℚ) < 1 / 2 then ⌊q⌋
  else if 1 / 2 < q - (⌊q⌋ : ℚ) then ⌊q⌋ + 1
  else if ⌊q⌋ % 2 = 0 then ⌊q⌋ else ⌊q⌋ + 1

/-- Store a JS number into a `Uint8ClampedArray` cell: clamp to `[0, 255]`,
round to nearest, ties to even. -/
def u8clamp (q : ℚ) : ℕ :=
  if q ≤ 0 then 0
  else if 255 ≤ q then 255
  else (rne q).toNat

/-- The contrast adjustment of one channel byte:
`((v - 128) * 1.25) + 128` stored back into the clamped byte array. -/
def contrastByte (v : ℕ) : ℕ :=
  u8clamp (((v : ℚ) - 128) * (5 / 4) + 128)

/-- A decoded image: dimensions plus the flat RGBA pixel buffer
(index `(y*width + x)*4 + c`, meaningful for indices `< width*height*4`). -/
structure ImageData : Type where
  width : ℕ
  height : ℕ
  data : ℕ → ℕ

/-- The contrast loop: every RGB channel byte of the buffer gets
`((v - 128) * 1.25) + 128`; alpha bytes and indices beyond the buffer are
untouched. -/
def contrastPass (img : ImageData) (i : ℕ) : ℕ :=
  if i < img.width * img.height * 4 ∧ i % 4 < 3 then contrastByte (img.data i)
  else img.data i

/-- The sharpening loop on buffer `buf` (the `inputBuffer` copy): for an RGB
channel byte of an interior pixel (`1 ≤ x < w-1`, `1 ≤ y < h-1`, decoded
from the flat index), store `5·center − left − right − up − down` clamped;
every other index keeps its `buf` value. -/
def sharpenPass (img : ImageData) (buf : ℕ → ℕ) (i : ℕ) : ℕ :=
  if i < img.width * img.height * 4 ∧ i % 4 < 3 ∧
      1 ≤ (i / 4) % img.width ∧ (i / 4) % img.width < img.width - 1 ∧
      1 ≤ (i / 4) / img.width ∧ (i / 4) / img.width < img.height - 1 then
    u8clamp (5 * (buf i : ℚ) - (buf (i - 4) : ℚ) - (buf (i + 4) : ℚ)
      - (buf (i - img.width * 4) : ℚ) - (buf (i + img.width * 4) : ℚ))
  else buf i

/-- Function `enhanceImage` on the decoded buffer: the contrast pass over every RGB
channel byte, then the cross-shaped sharpening convolution (center 5,
four-neighbour −1) over interior pixels, reading from the contrast-adjusted
copy (`inputBuffer`) and clamping on store. Dimensions are copied from the
input (`canvas.width = img.width`). -/
def enhanceImage (img : ImageData) : ImageData :=
  { width := img.width, height := img.height,
    data := sharpenPass img (contrastPass img) }

/-- A 3×3 image whose RGB channels are all `g` with opaque alpha. -/
def uniformGray3 (g : ℕ) : ImageData :=
  { width := 3, height := 3, data := fun i => if i % 4 = 3 then 255 else g }

/-- The contrast adjustment evaluated in plain natural-number arithmetic:
the exact value of `contrastByte` (the JS float `(v-128)*1.25+128` is the
exact rational `(5v-128)/4`). -/
def contrastByteN (v : ℕ) : ℕ :=
  if 5 * v ≤ 128 then 0
  else
    let m := 5 * v - 128
    if 1020 ≤ m then 255
    else if m % 4 ≤ 1 then m / 4
    else if m % 4 = 3 then m / 4 + 1
    else if (m / 4) % 2 = 0 then m / 4 else m / 4 + 1

/-- A sample successful scan result used by concrete witnesses. -/
def sampleResult : ScanResult :=
  { status := HalalStatus.HALAL, reason := "ok",
    ingredientsDetected := IngredientsField.modern [], confidence := 95 }

/-- A sample failed (confidence-0) scan result. -/
def sampleFailure : ScanResult :=
  { status := HalalStatus.NON_FOOD, reason := "could not read the label",
    ingredientsDetected := IngredientsField.modern [], confidence := 0 }

/-- A sample app state: anonymous free user below the quota, one image. -/
def sampleState : AppState :=
  { userId := none, isPremium := false, scanCount := 3, images := ["img"],
    history := [], result := none, error := none, isLoading := false,
    useLowQuality := false, showSubscriptionModal := false }

/-- A sample environment whose network call resolves with `sampleFailure`. -/
def sampleFailEnv : AnalyzeEnv :=
  { response := NetResponse.ok sampleFailure, stats := StatsResponse.noRow,
    thumb := none, storeOk := true, now := 7 }

/-- A concrete codec for `Bool` values: identity obfuscation and a literal
`true`/`false` serializer, satisfying the codec laws. -/
def boolCodec : BrowserCodec Bool :=
  { stringifyJson := fun b => if b then "true" else "false",
    parseJson := fun s =>
      if s = "true" then some true else if s = "false" then some false else none,
    obfuscate := fun s => s,
    deobfuscate := fun s => some s }

/-- A stub canvas re-encoder for concrete witnesses. -/
def sampleEncode : ℕ → ℕ → List ℕ := fun w h => [w, h]

/-- A small image that already fits a 2000×2000 bound. -/
def sampleSmallImg : Img := { width := 100, height := 50, data := [7, 7, 7] }

/-- A large image exceeding a 2000×2000 bound. -/
def sampleLargeImg : Img := { width := 4000, height := 1000, data := [7] }

/-! ## Evaluation lemmas for the clamped byte arithmetic

`Rat` division does not reduce definitionally, so concrete pixel values are
obtained through the following bridge lemmas to plain natural-number
arithmetic. -/

theorem rne_intCast (z : ℤ) : rne (z : ℚ) = z := by
  unfold rne
  norm_num

theorem rne_le_floor_add_one (q : ℚ) : rne q ≤ ⌊q⌋ + 1 := by
  unfold rne
  split
  · omega
  · split
    · omega
    · split <;> omega

theorem u8clamp_intCast (z : ℤ) :
    u8clamp (z : ℚ) = if z ≤ 0 then 0 else if 255 ≤ z then 255 else z.toNat := by
  unfold u8clamp
  rw [rne_intCast]
  by_cases h0 : z ≤ 0
  · rw [if_pos (by exact_mod_cast h0), if_pos h0]
  · rw [if_neg (by exact_mod_cast h0), if_neg h0]
    by_cases h255 : (255 : ℤ) ≤ z
    · rw [if_pos (by exact_mod_cast h255), if_pos h255]
    · rw [if_neg (by exact_mod_cast h255), if_neg h255]

theorem u8clamp_natCast (v : ℕ) (hv : v ≤ 255) : u8clamp (v : ℚ) = v := by
  have h := u8clamp_intCast (v : ℤ)
  rw [Int.cast_natCast] at h
  rw [h]
  split
  · omega
  · split
    · omega
    · omega

theorem u8clamp_le_255 (q : ℚ) : u8clamp q ≤ 255 := by
  unfold u8clamp
  split
  · omega
  · split
    · omega
    · rename_i h0 h255
      have hq : q < 255 := lt_of_not_le h255
      have hf : ⌊q⌋ < 255 := by
        rw [Int.floor_lt]
        exact_mod_cast hq
      have := rne_le_floor_add_one q
      omega

theorem floor_natCast_div_four (m : ℕ) : ⌊(m : ℚ) / 4⌋ = (m / 4 : ℕ) := by
  have h := Rat.floor_natCast_div_natCast m 4
  have h4 : ((4 : ℕ) : ℚ) = (4 : ℚ) := by norm_num
  rw [h4] at h
  exact h

theorem rne_natCast_div_four (m : ℕ) :
    rne ((m : ℚ) / 4) =
      ((if m % 4 ≤ 1 then m / 4
        else if m % 4 = 3 then m / 4 + 1
        else if (m / 4) % 2 = 0 then m / 4 else m / 4 + 1 : ℕ) : ℤ) := by
  unfold rne
  rw [floor_natCast_div_four]
  have hm' : (m : ℚ) = 4 * ((m / 4 : ℕ) : ℚ) + ((m % 4 : ℕ) : ℚ) := by
    exact_mod_cast (Nat.div_add_mod m 4).symm
  have hr : (m : ℚ) / 4 - (((m / 4 : ℕ) : ℤ) : ℚ) = ((m % 4 : ℕ) : ℚ) / 4 := by
    have h1 : (((m / 4 : ℕ) : ℤ) : ℚ) = ((m / 4 : ℕ) : ℚ) := by norm_cast
    rw [h1, hm']
    ring
  simp only [hr]
  have h4 : m % 4 = 0 ∨ m % 4 = 1 ∨ m % 4 = 2 ∨ m % 4 = 3 := by omega
  have heven : (((m / 4 : ℕ) : ℤ) % 2 = 0) ↔ (m / 4) % 2 = 0 := by omega
  rcases h4 with h | h | h | h
  · rw [h]
    norm_num
  · rw [h]
    norm_num
  · rw [h]
    rw [if_neg (by norm_num : ¬(((2 : ℕ) : ℚ) / 4 < 1 / 2))]
    rw [if_neg (by norm_num : ¬((1 : ℚ) / 2 < ((2 : ℕ) : ℚ) / 4))]
    rw [if_neg (by norm_num : ¬((2 : ℕ) ≤ 1))]
    rw [if_neg (by norm_num : ¬((2 : ℕ) = 3))]
    by_cases hp : (m / 4) % 2 = 0
    · rw [if_pos (heven.mpr hp), if_pos hp]
    · rw [if_neg (fun hc => hp (heven.mp hc)), if_neg hp]
      push_cast
      ring
  · rw [h]
    rw [if_neg (by norm_num : ¬(((3 : ℕ) : ℚ) / 4 < 1 / 2))]
    rw [if_pos (by norm_num : (1 : ℚ) / 2 < ((3 : ℕ) : ℚ) / 4)]
    rw [if_neg (by norm_num : ¬((3 : ℕ) ≤ 1))]
    rw [if_pos (by norm_num : (3 : ℕ) = 3)]
    push_cast
    ring

theorem u8clamp_natCast_div_four (m : ℕ) (hm : 0 < m) :
    u8clamp ((m : ℚ) / 4) =
      if 1020 ≤ m then 255
      else if m % 4 ≤ 1 then m / 4
      else if m % 4 = 3 then m / 4 + 1
      else if (m / 4) % 2 = 0 then m / 4 else m / 4 + 1 := by
  unfold u8clamp
  have hpos : ¬((m : ℚ) / 4 ≤ 0) := by
    have : (0 : ℚ) < (m : ℚ) := by exact_mod_cast hm
    intro hc
    nlinarith
  rw [if_neg hpos]
  by_cases h1020 : 1020 ≤ m
  · rw [if_pos (by
      have : (1020 : ℚ) ≤ (m : ℚ) := by exact_mod_cast h1020
      linarith), if_pos h1020]
  · rw [if_neg (by
      have : (m : ℚ) < 1020 := by exact_mod_cast Nat.lt_of_not_le h1020
      intro hc
      linarith), if_neg h1020]
    rw [rne_natCast_div_four]
    have : (0 : ℤ) ≤ ((if m % 4 ≤ 1 then m / 4
        else if m % 4 = 3 then m / 4 + 1
        else if (m / 4) % 2 = 0 then m / 4 else m / 4 + 1 : ℕ) : ℤ) := Int.natCast_nonneg _
    omega

theorem contrastByte_eval (v : ℕ) : contrastByte v = contrastByteN v := by
  unfold contrastByte contrastByteN
  by_cases h : 5 * v ≤ 128
  · have hq : ((v : ℚ) - 128) * (5 / 4) + 128 ≤ 0 := by
      have : ((5 * v : ℕ) : ℚ) ≤ 128 := by exact_mod_cast h
      push_cast at this
      linarith
    unfold u8clamp
    rw [if_pos hq, if_pos h]
  · have h128 : 128 ≤ 5 * v := Nat.le_of_not_lt (by omega)
    have key : ((v : ℚ) - 128) * (5 / 4) + 128 = ((5 * v - 128 : ℕ) : ℚ) / 4 := by
      have : ((5 * v - 128 : ℕ) : ℚ) = 5 * (v : ℚ) - 128 := by
        push_cast [h128]
        ring
      rw [this]
      ring
    rw [key, u8clamp_natCast_div_four _ (by omega), if_neg h]

/-! ## Claim theorems -/

/-- C3: after any `saveToHistory` call the in-memory history has at most 30
items; the surviving state is the freshly built item (carrying the given
result and timestamp) prepended to the first 29 old entries (newest-first);
and when the store already holds exactly 30 items the entry evicted is
precisely the last one, i.e. the oldest by insertion order, independent of
any read access. -/
theorem saveToHistory_spec (history : List ScanHistoryItem) (scanResult : ScanResult)
    (thumbnail : Option String) (now : ℕ) (storeOk : Bool) :
    ∃ newItem : ScanHistoryItem,
      newItem.result = scanResult ∧ newItem.date = now ∧
      saveToHistory history scanResult thumbnail now storeOk = newItem :: history.take 29 ∧
      (saveToHistory history scanResult thumbnail now storeOk).length ≤ 30 ∧
      (history.length = 30 →
        saveToHistory history scanResult thumbnail now storeOk = newItem :: history.dropLast) := by
  have hdl : history.length = 30 → history.take 29 = history.dropLast := by
    intro h30
    rw [List.dropLast_eq_take, h30]
  have hlen : ∀ it : ScanHistoryItem, (it :: history.take 29).length ≤ 30 := by
    intro it
    have := List.length_take 29 history
    simp only [List.length_cons, this]
    omega
  have htake : ∀ it : ScanHistoryItem, (it :: history).take 30 = it :: history.take 29 :=
    fun it => List.take_succ_cons
  unfold saveToHistory
  cases storeOk with
  | true =>
      refine ⟨mkHistoryItem now scanResult thumbnail, rfl, rfl, ?_, ?_, ?_⟩
      · simpa using htake _
      · simpa [htake] using hlen _
      · intro h30
        simpa [hdl h30] using htake _
  | false =>
      cases thumbnail with
      | none =>
          refine ⟨mkHistoryItem now scanResult none, rfl, rfl, ?_, ?_, ?_⟩
          · simpa using htake _
          · simpa [htake] using hlen _
          · intro h30
            simpa [hdl h30] using htake _
      | some t =>
          refine ⟨{ mkHistoryItem now scanResult (some t) with thumbnail := none },
            rfl, rfl, ?_, ?_, ?_⟩
          · simpa using htake _
          · simpa [htake] using hlen _
          · intro h30
            simpa [hdl h30] using htake _

/-- Witness for C3 at a concrete input. -/
theorem saveToHistory_spec_witness :
    ∃ newItem : ScanHistoryItem,
      newItem.result = sampleResult ∧ newItem.date = 7 ∧
      saveToHistory [] sampleResult none 7 true = newItem :: List.take 29 [] ∧
      (saveToHistory [] sampleResult none 7 true).length ≤ 30 ∧
      (List.length ([] : List ScanHistoryItem) = 30 →
        saveToHistory [] sampleResult none 7 true = newItem :: List.dropLast []) :=
  saveToHistory_spec [] sampleResult none 7 true

/-- C7: migrating a stored item whose `ingredientsDetected` is a (non-empty)
plain list of name strings yields per-ingredient entries whose names are the
original strings in order and whose statuses are all `HALAL`; items already
in the modern shape are returned unmodified. -/
theorem migrateItem_spec (item : ScanHistoryItem) :
    (∀ names : List String,
      item.result.ingredientsDetected = IngredientsField.legacy names →
      names ≠ [] →
      ∃ entries : List IngredientDetail,
        (migrateItem item).result.ingredientsDetected = IngredientsField.modern entries ∧
        entries.map IngredientDetail.name = names ∧
        ∀ e ∈ entries, e.status = HalalStatus.HALAL) ∧
    (∀ items : List IngredientDetail,
      item.result.ingredientsDetected = IngredientsField.modern items →
      migrateItem item = item) := by
  constructor
  · intro names hleg hne
    refine ⟨names.map fun n => ⟨n, HalalStatus.HALAL⟩, ?_, ?_, ?_⟩
    · have hpos : names.length > 0 := List.length_pos.mpr hne
      simp [migrateItem, hleg, hpos]
    · simp only [List.map_map]
      exact List.map_id'' (fun n => rfl) names
    · intro e he
      rw [List.mem_map] at he
      obtain ⟨n, _, rfl⟩ := he
      rfl
  · intro items hmod
    unfold migrateItem
    rw [hmod]

/-- Witness for C7 at a concrete legacy item and a concrete modern item. -/
theorem migrateItem_spec_witness :
    (∃ entries : List IngredientDetail,
      (migrateItem
        { id := "1", date := 1,
          result := { sampleResult with
            ingredientsDetected := IngredientsField.legacy ["water", "sugar"] },
          thumbnail := none }).result.ingredientsDetected =
        IngredientsField.modern entries ∧
      entries.map IngredientDetail.name = ["water", "sugar"] ∧
      ∀ e ∈ entries, e.status = HalalStatus.HALAL) ∧
    migrateItem { id := "2", date := 2, result := sampleResult, thumbnail := none } =
      { id := "2", date := 2, result := sampleResult, thumbnail := none } := by
  constructor
  · exact (migrateItem_spec _).1 ["water", "sugar"] rfl (by decide)
  · exact (migrateItem_spec _).2 [] rfl

/-- C9: while a capture is in flight (`isCapturing = true`) a re-entrant
`captureImage` call returns with no effect and no image; and a completed
capture-and-hold (`shouldClose = false`) releases the lock, so a subsequent
capture on the resulting state is accepted and delivers an image. -/
theorem captureImage_single_flight (s : CaptureState) (videoReady ctxOk shouldClose : Bool) :
    (s.isCapturing = true →
      captureImage s videoReady ctxOk shouldClose = (s, false)) ∧
    (s.isCapturing = false →
      captureImage s true true false = ({ isCapturing := false }, true) ∧
      (captureImage (captureImage s true true false).1 true true false).2 = true) := by
  constructor
  · intro h
    unfold captureImage
    rw [if_pos h]
  · intro h
    unfold captureImage
    rw [h]
    simp

/-- Witness for C9: a busy session rejects, an idle session captures and
holds, then captures again. -/
theorem captureImage_single_flight_witness :
    (captureImage { isCapturing := true } true true false =
      ({ isCapturing := true }, false)) ∧
    captureImage { isCapturing := false } true true false =
      ({ isCapturing := false }, true) ∧
    (captureImage (captureImage { isCapturing := false } true true false).1
      true true false).2 = true :=
  ⟨(captureImage_single_flight { isCapturing := true } true true false).1 rfl,
   (captureImage_single_flight { isCapturing := false } true true false).2 rfl⟩

/-- C2: with `premium = false` and `scanCount ≥ FREE_SCANS_LIMIT`,
`handleAnalyze` terminates immediately with the subscription-modal outcome
and zero network calls; and `canScan` is false exactly when
`¬premium ∧ scanCount ≥ FREE_SCANS_LIMIT`. -/
theorem analyze_quota_preflight (s : AppState) (env : AnalyzeEnv)
    (hprem : s.isPremium = false) (hcount : FREE_SCANS_LIMIT ≤ s.scanCount) :
    handleAnalyze s env =
      { state := { s with showSubscriptionModal := true },
        networkCalls := 0, quotaRefreshes := 0 } ∧
    (∀ s' : AppState,
      canScan s' = false ↔ (s'.isPremium = false ∧ FREE_SCANS_LIMIT ≤ s'.scanCount)) := by
  constructor
  · have hgate : quotaGateBlocks s = true := by
      simp [quotaGateBlocks, hprem, hcount]
    unfold handleAnalyze
    rw [if_pos hgate]
  · intro s'
    simp [canScan, quotaGateBlocks]

/-- Witness for C2: a free user at the limit is rejected without a call. -/
theorem analyze_quota_preflight_witness :
    handleAnalyze { sampleState with scanCount := 20 } sampleFailEnv =
      { state := { sampleState with scanCount := 20, showSubscriptionModal := true },
        networkCalls := 0, quotaRefreshes := 0 } ∧
    (∀ s' : AppState,
      canScan s' = false ↔ (s'.isPremium = false ∧ FREE_SCANS_LIMIT ≤ s'.scanCount)) :=
  analyze_quota_preflight { sampleState with scanCount := 20 } sampleFailEnv rfl
    (by decide)

/-- C1: when an analyze attempt that passed the preflight receives a
`ScanResult` with `confidence = 0`, both `handleAnalyze` and
`handleAnalyzeText` leave the history untouched, leave `scanCount`
untouched, never invoke the quota refresh, and surface the result's reason
as the error. -/
theorem confidence_zero_never_recorded (s : AppState) (env : AnalyzeEnv) (r : ScanResult)
    (hok : env.response = NetResponse.ok r) (h0 : r.confidence = 0)
    (hcan : canScan s = true) :
    (s.images.length ≠ 0 →
      (handleAnalyze s env).state.history = s.history ∧
      (handleAnalyze s env).state.scanCount = s.scanCount ∧
      (handleAnalyze s env).quotaRefreshes = 0 ∧
      (handleAnalyze s env).state.result = s.result ∧
      (handleAnalyze s env).state.error = some r.reason) ∧
    ((handleAnalyzeText s env).state.history = s.history ∧
     (handleAnalyzeText s env).state.scanCount = s.scanCount ∧
     (handleAnalyzeText s env).quotaRefreshes = 0 ∧
     (handleAnalyzeText s env).state.error = some r.reason) := by
  have hq : quotaGateBlocks s = false := by
    simp [canScan] at hcan
    exact hcan
  constructor
  · intro himg
    simp [handleAnalyze, hq, himg, hok, h0]
  · simp [handleAnalyzeText, hq, hok, h0]

/-- Witness for C1: a confidence-0 response on a below-quota state changes
no history, count or quota, and surfaces the reason. -/
theorem confidence_zero_never_recorded_witness :
    ((sampleState.images.length ≠ 0 →
      (handleAnalyze sampleState sampleFailEnv).state.history = sampleState.history ∧
      (handleAnalyze sampleState sampleFailEnv).state.scanCount = sampleState.scanCount ∧
      (handleAnalyze sampleState sampleFailEnv).quotaRefreshes = 0 ∧
      (handleAnalyze sampleState sampleFailEnv).state.result = sampleState.result ∧
      (handleAnalyze sampleState sampleFailEnv).state.error = some sampleFailure.reason) ∧
    ((handleAnalyzeText sampleState sampleFailEnv).state.history = sampleState.history ∧
     (handleAnalyzeText sampleState sampleFailEnv).state.scanCount = sampleState.scanCount ∧
     (handleAnalyzeText sampleState sampleFailEnv).quotaRefreshes = 0 ∧
     (handleAnalyzeText sampleState sampleFailEnv).state.error = some sampleFailure.reason)) :=
  confidence_zero_never_recorded sampleState sampleFailEnv sampleFailure rfl rfl
    (by decide)

theorem lsGet_lsSet_self (st : LocalStore) (k v : String) :
    lsGet (lsSet st k v) k = some v := by
  simp [lsGet, lsSet, List.find?_cons]

theorem lsGet_lsRemove_self (st : LocalStore) (k : String) :
    lsGet (lsRemove st k) k = none := by
  induction st with
  | nil => rfl
  | cons p rest ih =>
      by_cases h : p.1 == k
      · simpa [lsRemove, List.filter_cons, h] using ih
      · simp only [lsRemove, List.filter_cons, h] at ih ⊢
        simpa [lsGet, List.find?_cons, h] using ih

/-- C10 (implicit round-trip of `secureStorage`): for any platform codec
satisfying the standard inverse laws of `JSON` and
`btoa ∘ encodeURIComponent`, a `getItem` immediately after `setItem` on the
same key returns the stored value; `getItem` returns the default when
nothing is stored under the (salted) key; and `getItem` after `removeItem`
returns the default. -/
theorem secureStorage_roundtrip {J : Type} (c : BrowserCodec J)
    (hdeob : ∀ s, c.deobfuscate (c.obfuscate s) = some s)
    (hparse : ∀ v, c.parseJson (c.stringifyJson v) = some v)
    (st : LocalStore) (k : String) (v d : J) :
    secureGetItem c (secureSetItem c st k v) k d = v ∧
    (lsGet st (SALT ++ k) = none → secureGetItem c st k d = d) ∧
    secureGetItem c (secureRemoveItem st k) k d = d := by
  refine ⟨?_, ?_, ?_⟩
  · unfold secureGetItem secureSetItem
    rw [lsGet_lsSet_self]
    simp [hdeob, hparse]
  · intro hnone
    unfold secureGetItem
    rw [hnone]
  · unfold secureGetItem secureRemoveItem
    rw [lsGet_lsRemove_self]

/-- Witness for C10 with a concrete lawful codec on `Bool`. -/
theorem secureStorage_roundtrip_witness :
    secureGetItem boolCodec (secureSetItem boolCodec [] "scanCount" true)
      "scanCount" false = true ∧
    (lsGet [] (SALT ++ "scanCount") = none →
      secureGetItem boolCodec [] "scanCount" false = false) ∧
    secureGetItem boolCodec (secureRemoveItem [] "scanCount") "scanCount" false = false :=
  secureStorage_roundtrip boolCodec (fun _ => rfl)
    (fun v => by cases v <;> rfl) [] "scanCount" true false

/-- C8 counterexample: the claim says progress "is reset to 0 on error",
but after one timer tick followed by the error (`catch`) path the progress
value is 42, not 0 — the `catch` block only clears the timer. -/
theorem progress_error_reset_refuted :
    (runProgress sendingInit [ProgressEvent.tick, ProgressEvent.fail]).progress = 42 ∧
    (runProgress sendingInit [ProgressEvent.tick, ProgressEvent.fail]).progress ≠ 0 := by
  decide

theorem progressStep_tick (s : ProgressState) :
    progressStep s ProgressEvent.tick =
      if s.timerActive then
        if s.progress ≥ 90 then { progress := 90, timerActive := false }
        else { progress := s.progress + 2, timerActive := true }
      else s := rfl

theorem progressStep_tick_invariant (s : ProgressState) (h1 : 40 ≤ s.progress)
    (h2 : s.progress ≤ 90) (h3 : s.progress % 2 = 0) :
    40 ≤ (progressStep s ProgressEvent.tick).progress ∧
    (progressStep s ProgressEvent.tick).progress ≤ 90 ∧
    (progressStep s ProgressEvent.tick).progress % 2 = 0 := by
  rw [progressStep_tick]
  by_cases ht : s.timerActive
  · rw [if_pos ht]
    by_cases h90 : s.progress ≥ 90
    · rw [if_pos h90]
      exact ⟨by decide, by decide, by decide⟩
    · rw [if_neg h90]
      refine ⟨?_, ?_, ?_⟩
      · show 40 ≤ s.progress + 2
        omega
      · show s.progress + 2 ≤ 90
        omega
      · show (s.progress + 2) % 2 = 0
        omega
  · rw [if_neg ht]
    exact ⟨h1, h2, h3⟩

theorem runProgress_tick_invariant (s : ProgressState) (h1 : 40 ≤ s.progress)
    (h2 : s.progress ≤ 90) (h3 : s.progress % 2 = 0) (n : ℕ) :
    40 ≤ (runProgress s (List.replicate n ProgressEvent.tick)).progress ∧
    (runProgress s (List.replicate n ProgressEvent.tick)).progress ≤ 90 ∧
    (runProgress s (List.replicate n ProgressEvent.tick)).progress % 2 = 0 := by
  induction n generalizing s with
  | zero => exact ⟨h1, h2, h3⟩
  | succ n ih =>
      rw [List.replicate_succ]
      have hrun : runProgress s (ProgressEvent.tick :: List.replicate n ProgressEvent.tick) =
          runProgress (progressStep s ProgressEvent.tick)
            (List.replicate n ProgressEvent.tick) := rfl
      rw [hrun]
      obtain ⟨g1, g2, g3⟩ := progressStep_tick_invariant s h1 h2 h3
      exact ih _ g1 g2 g3

/-- C8 amended: during the Sending phase the synthetic progress starts at
40, only ever increases under timer ticks, stays at most 90 (hence never
reaches 100 before a response), is set to exactly 100 with the timer
cleared when the response arrives, keeps its value (it is not reset to 0)
but clears the timer on the error path, and is reset to 0 with the timer
cleared only by the caller-initiated `resetApp`. -/
theorem progress_sending_amended (n : ℕ) :
    40 ≤ (runProgress sendingInit (List.replicate n ProgressEvent.tick)).progress ∧
    (runProgress sendingInit (List.replicate n ProgressEvent.tick)).progress ≤
      (runProgress sendingInit (List.replicate (n + 1) ProgressEvent.tick)).progress ∧
    (runProgress sendingInit (List.replicate n ProgressEvent.tick)).progress < 100 ∧
    progressStep (runProgress sendingInit (List.replicate n ProgressEvent.tick))
      ProgressEvent.respond = { progress := 100, timerActive := false } ∧
    (progressStep (runProgress sendingInit (List.replicate n ProgressEvent.tick))
      ProgressEvent.fail).progress =
      (runProgress sendingInit (List.replicate n ProgressEvent.tick)).progress ∧
    (progressStep (runProgress sendingInit (List.replicate n ProgressEvent.tick))
      ProgressEvent.fail).timerActive = false ∧
    progressStep (runProgress sendingInit (List.replicate n ProgressEvent.tick))
      ProgressEvent.reset = { progress := 0, timerActive := false } := by
  obtain ⟨h1, h2, h3⟩ :=
    runProgress_tick_invariant sendingInit (by decide) (by decide) (by decide) n
  refine ⟨h1, ?_, by omega, rfl, rfl, rfl, rfl⟩
  have hstep : runProgress sendingInit (List.replicate (n + 1) ProgressEvent.tick) =
      progressStep (runProgress sendingInit (List.replicate n ProgressEvent.tick))
        ProgressEvent.tick := by
    rw [List.replicate_add, List.replicate_one]
    unfold runProgress
    rw [List.foldl_append]
    rfl
  rw [hstep, progressStep_tick]
  by_cases ht : (runProgress sendingInit (List.replicate n ProgressEvent.tick)).timerActive
  · rw [if_pos ht]
    by_cases h90 : (runProgress sendingInit (List.replicate n ProgressEvent.tick)).progress ≥ 90
    · rw [if_pos h90]
      show _ ≤ (90 : ℕ)
      omega
    · rw [if_neg h90]
      show _ ≤ _ + 2
      omega
  · rw [if_neg ht]

theorem jsRound_le_int (q : ℚ) (z : ℤ) (h : q ≤ z) : jsRound q ≤ z := by
  unfold jsRound
  have h1 : ⌊q + 1 / 2⌋ ≤ ⌊(z : ℚ) + 1 / 2⌋ := Int.floor_le_floor (by linarith)
  have h2 : ⌊(z : ℚ) + 1 / 2⌋ = z := by
    rw [add_comm, Int.floor_add_int]
    norm_num
  omega

theorem jsRound_nonneg (q : ℚ) (h : 0 ≤ q) : 0 ≤ jsRound q := by
  unfold jsRound
  apply Int.le_floor.mpr
  push_cast
  linarith

theorem jsRound_close (q : ℚ) : |((jsRound q : ℤ) : ℚ) - q| ≤ 1 / 2 := by
  unfold jsRound
  have h1 : ((⌊q + 1 / 2⌋ : ℤ) : ℚ) ≤ q + 1 / 2 := Int.floor_le _
  have h2 : q + 1 / 2 - 1 < ((⌊q + 1 / 2⌋ : ℤ) : ℚ) := Int.sub_one_lt_floor _
  rw [abs_le]
  constructor <;> linarith

theorem downscaleFactor_nonneg (img : Img) (maxWidth maxHeight : ℕ) :
    0 ≤ downscaleFactor img maxWidth maxHeight := by
  unfold downscaleFactor
  apply le_min <;> positivity

theorem downscaledWidth_le (img : Img) (maxWidth maxHeight : ℕ) (hw : 0 < img.width) :
    downscaledWidth img maxWidth maxHeight ≤ maxWidth := by
  unfold downscaledWidth
  have hwpos : (0 : ℚ) < (img.width : ℚ) := by exact_mod_cast hw
  have hub : (img.width : ℚ) * downscaleFactor img maxWidth maxHeight ≤ (maxWidth : ℚ) := by
    have h1 : downscaleFactor img maxWidth maxHeight ≤ (maxWidth : ℚ) / (img.width : ℚ) :=
      min_le_left _ _
    calc (img.width : ℚ) * downscaleFactor img maxWidth maxHeight
        ≤ (img.width : ℚ) * ((maxWidth : ℚ) / (img.width : ℚ)) :=
          mul_le_mul_of_nonneg_left h1 (le_of_lt hwpos)
      _ = (maxWidth : ℚ) := by field_simp
  have := jsRound_le_int _ (maxWidth : ℤ) (by exact_mod_cast hub)
  omega

theorem downscaledHeight_le (img : Img) (maxWidth maxHeight : ℕ) (hh : 0 < img.height) :
    downscaledHeight img maxWidth maxHeight ≤ maxHeight := by
  unfold downscaledHeight
  have hhpos : (0 : ℚ) < (img.height : ℚ) := by exact_mod_cast hh
  have hub : (img.height : ℚ) * downscaleFactor img maxWidth maxHeight ≤ (maxHeight : ℚ) := by
    have h1 : downscaleFactor img maxWidth maxHeight ≤ (maxHeight : ℚ) / (img.height : ℚ) :=
      min_le_right _ _
    calc (img.height : ℚ) * downscaleFactor img maxWidth maxHeight
        ≤ (img.height : ℚ) * ((maxHeight : ℚ) / (img.height : ℚ)) :=
          mul_le_mul_of_nonneg_left h1 (le_of_lt hhpos)
      _ = (maxHeight : ℚ) := by field_simp
  have := jsRound_le_int _ (maxHeight : ℤ) (by exact_mod_cast hub)
  omega

theorem downscale_aspect (img : Img) (maxWidth maxHeight : ℕ) :
    |((downscaledWidth img maxWidth maxHeight : ℕ) : ℚ) * (img.height : ℚ) -
      ((downscaledHeight img maxWidth maxHeight : ℕ) : ℚ) * (img.width : ℚ)| ≤
      ((img.width : ℚ) + (img.height : ℚ)) / 2 := by
  have hr0 : 0 ≤ downscaleFactor img maxWidth maxHeight := downscaleFactor_nonneg _ _ _
  have hwa : 0 ≤ (img.width : ℚ) * downscaleFactor img maxWidth maxHeight :=
    mul_nonneg (by positivity) hr0
  have hhb : 0 ≤ (img.height : ℚ) * downscaleFactor img maxWidth maxHeight :=
    mul_nonneg (by positivity) hr0
  have hW : ((downscaledWidth img maxWidth maxHeight : ℕ) : ℚ) =
      ((jsRound ((img.width : ℚ) * downscaleFactor img maxWidth maxHeight) : ℤ) : ℚ) := by
    unfold downscaledWidth
    exact_mod_cast congrArg (fun z : ℤ => (z : ℚ))
      (Int.toNat_of_nonneg (jsRound_nonneg _ hwa))
  have hH : ((downscaledHeight img maxWidth maxHeight : ℕ) : ℚ) =
      ((jsRound ((img.height : ℚ) * downscaleFactor img maxWidth maxHeight) : ℤ) : ℚ) := by
    unfold downscaledHeight
    exact_mod_cast congrArg (fun z : ℤ => (z : ℚ))
      (Int.toNat_of_nonneg (jsRound_nonneg _ hhb))
  rw [hW, hH]
  have d1 := jsRound_close ((img.width : ℚ) * downscaleFactor img maxWidth maxHeight)
  have d2 := jsRound_close ((img.height : ℚ) * downscaleFactor img maxWidth maxHeight)
  have key : ((jsRound ((img.width : ℚ) * downscaleFactor img maxWidth maxHeight) : ℤ) : ℚ) *
        (img.height : ℚ) -
      ((jsRound ((img.height : ℚ) * downscaleFactor img maxWidth maxHeight) : ℤ) : ℚ) *
        (img.width : ℚ) =
      (((jsRound ((img.width : ℚ) * downscaleFactor img maxWidth maxHeight) : ℤ) : ℚ) -
        (img.width : ℚ) * downscaleFactor img maxWidth maxHeight) * (img.height : ℚ) -
      (((jsRound ((img.height : ℚ) * downscaleFactor img maxWidth maxHeight) : ℤ) : ℚ) -
        (img.height : ℚ) * downscaleFactor img maxWidth maxHeight) * (img.width : ℚ) := by
    ring
  rw [key]
  have tri := abs_sub
    ((((jsRound ((img.width : ℚ) * downscaleFactor img maxWidth maxHeight) : ℤ) : ℚ) -
      (img.width : ℚ) * downscaleFactor img maxWidth maxHeight) * (img.height : ℚ))
    ((((jsRound ((img.height : ℚ) * downscaleFactor img maxWidth maxHeight) : ℤ) : ℚ) -
      (img.height : ℚ) * downscaleFactor img maxWidth maxHeight) * (img.width : ℚ))
  have e1 : |(((jsRound ((img.width : ℚ) * downscaleFactor img maxWidth maxHeight) : ℤ) : ℚ) -
      (img.width : ℚ) * downscaleFactor img maxWidth maxHeight) * (img.height : ℚ)| ≤
      1 / 2 * (img.height : ℚ) := by
    rw [abs_mul, abs_of_nonneg (show (0 : ℚ) ≤ (img.height : ℚ) by positivity)]
    exact mul_le_mul_of_nonneg_right d1 (by positivity)
  have e2 : |(((jsRound ((img.height : ℚ) * downscaleFactor img maxWidth maxHeight) : ℤ) : ℚ) -
      (img.height : ℚ) * downscaleFactor img maxWidth maxHeight) * (img.width : ℚ)| ≤
      1 / 2 * (img.width : ℚ) := by
    rw [abs_mul, abs_of_nonneg (show (0 : ℚ) ≤ (img.width : ℚ) by positivity)]
    exact mul_le_mul_of_nonneg_right d2 (by positivity)
  calc |_| ≤ _ := tri
  _ ≤ 1 / 2 * (img.height : ℚ) + 1 / 2 * (img.width : ℚ) := add_le_add e1 e2
  _ = ((img.width : ℚ) + (img.height : ℚ)) / 2 := by ring

/-- C4: when both dimensions already fit, `downscaleImageIfNeeded` returns
its input byte-identically (the very same value, data included); otherwise
the output dimensions satisfy `newWidth ≤ maxWidth` and
`newHeight ≤ maxHeight` (so with a single bound `max(width, height) ≤
bound`), and the aspect ratio is preserved within rounding:
`|newWidth·height − newHeight·width| ≤ (width + height)/2`. -/
theorem downscale_spec (encode : ℕ → ℕ → List ℕ) (img : Img) (maxWidth maxHeight : ℕ)
    (hw : 0 < img.width) (hh : 0 < img.height) :
    (img.width ≤ maxWidth ∧ img.height ≤ maxHeight →
      downscaleImageIfNeeded encode img maxWidth maxHeight = img) ∧
    (¬(img.width ≤ maxWidth ∧ img.height ≤ maxHeight) →
      (downscaleImageIfNeeded encode img maxWidth maxHeight).width ≤ maxWidth ∧
      (downscaleImageIfNeeded encode img maxWidth maxHeight).height ≤ maxHeight ∧
      (maxWidth = maxHeight →
        max (downscaleImageIfNeeded encode img maxWidth maxHeight).width
          (downscaleImageIfNeeded encode img maxWidth maxHeight).height ≤ maxWidth) ∧
      |((downscaleImageIfNeeded encode img maxWidth maxHeight).width : ℚ) * (img.height : ℚ) -
        ((downscaleImageIfNeeded encode img maxWidth maxHeight).height : ℚ) * (img.width : ℚ)| ≤
        ((img.width : ℚ) + (img.height : ℚ)) / 2) := by
  constructor
  · intro hfit
    unfold downscaleImageIfNeeded
    rw [if_pos hfit]
  · intro hnf
    unfold downscaleImageIfNeeded
    rw [if_neg hnf]
    refine ⟨downscaledWidth_le img maxWidth maxHeight hw,
      downscaledHeight_le img maxWidth maxHeight hh, ?_, ?_⟩
    · intro heq
      exact max_le (downscaledWidth_le img maxWidth maxHeight hw)
        (heq ▸ downscaledHeight_le img maxWidth maxHeight hh)
    · exact downscale_aspect img maxWidth maxHeight

/-- Witness for C4: a fitting image comes back unchanged; an oversized one
lands within the bound with aspect preserved. -/
theorem downscale_spec_witness :
    downscaleImageIfNeeded sampleEncode sampleSmallImg 2000 2000 = sampleSmallImg ∧
    ((downscaleImageIfNeeded sampleEncode sampleLargeImg 2000 2000).width ≤ 2000 ∧
     (downscaleImageIfNeeded sampleEncode sampleLargeImg 2000 2000).height ≤ 2000 ∧
     ((2000 : ℕ) = 2000 →
       max (downscaleImageIfNeeded sampleEncode sampleLargeImg 2000 2000).width
         (downscaleImageIfNeeded sampleEncode sampleLargeImg 2000 2000).height ≤ 2000) ∧
     |((downscaleImageIfNeeded sampleEncode sampleLargeImg 2000 2000).width : ℚ) *
        (sampleLargeImg.height : ℚ) -
       ((downscaleImageIfNeeded sampleEncode sampleLargeImg 2000 2000).height : ℚ) *
        (sampleLargeImg.width : ℚ)| ≤
       ((sampleLargeImg.width : ℚ) + (sampleLargeImg.height : ℚ)) / 2) :=
  ⟨(downscale_spec sampleEncode sampleSmallImg 2000 2000 (by decide) (by decide)).1
      (by decide),
   (downscale_spec sampleEncode sampleLargeImg 2000 2000 (by decide) (by decide)).2
      (by decide)⟩

theorem downscale_output_fits (encode : ℕ → ℕ → List ℕ) (img : Img)
    (maxWidth maxHeight : ℕ) (hw : 0 < img.width) (hh : 0 < img.height) :
    (downscaleImageIfNeeded encode img maxWidth maxHeight).width ≤ maxWidth ∧
    (downscaleImageIfNeeded encode img maxWidth maxHeight).height ≤ maxHeight := by
  unfold downscaleImageIfNeeded
  split
  · rename_i hfit
    exact hfit
  · exact ⟨downscaledWidth_le img maxWidth maxHeight hw,
      downscaledHeight_le img maxWidth maxHeight hh⟩

theorem contrastByte_le_255 (v : ℕ) : contrastByte v ≤ 255 := by
  unfold contrastByte
  exact u8clamp_le_255 _

theorem contrastPass_uniform (img : ImageData) (g : ℕ)
    (hg : ∀ i, i < img.width * img.height * 4 → i % 4 < 3 → img.data i = g)
    (i : ℕ) (hi : i < img.width * img.height * 4) (hc : i % 4 < 3) :
    contrastPass img i = contrastByte g := by
  unfold contrastPass
  rw [if_pos ⟨hi, hc⟩, hg i hi hc]

theorem enhance_uniform_data (img : ImageData) (g : ℕ)
    (hg : ∀ i, i < img.width * img.height * 4 → i % 4 < 3 → img.data i = g) :
    ∀ i, i < img.width * img.height * 4 → i % 4 < 3 →
      (enhanceImage img).data i = contrastByte g := by
  intro i hi hc
  show sharpenPass img (contrastPass img) i = contrastByte g
  unfold sharpenPass
  split
  · rename_i hguard
    obtain ⟨hi', hc', hx1, hx2, hy1, hy2⟩ := hguard
    have hdiv4 : 4 * (i / 4) + i % 4 = i := Nat.div_add_mod i 4
    have hdivw : img.width * ((i / 4) / img.width) + (i / 4) % img.width = i / 4 :=
      Nat.div_add_mod (i / 4) img.width
    have hxlt : (i / 4) % img.width + 2 ≤ img.width := by omega
    have hylt : (i / 4) / img.width + 2 ≤ img.height := by omega
    have hp1 : i / 4 + 1 < img.width * img.height := by
      have e2 : (i / 4) / img.width + 1 ≤ img.height := by omega
      calc i / 4 + 1
          = img.width * ((i / 4) / img.width) + ((i / 4) % img.width + 1) := by omega
        _ < img.width * ((i / 4) / img.width) + img.width := by omega
        _ = img.width * ((i / 4) / img.width + 1) := by ring
        _ ≤ img.width * img.height := Nat.mul_le_mul_left img.width e2
    have hpw : i / 4 + img.width < img.width * img.height := by
      calc i / 4 + img.width
          = img.width * ((i / 4) / img.width) + ((i / 4) % img.width + img.width) := by omega
        _ < img.width * ((i / 4) / img.width) + (img.width + img.width) := by omega
        _ = img.width * ((i / 4) / img.width + 2) := by ring
        _ ≤ img.width * img.height := Nat.mul_le_mul_left img.width hylt
    have hwlep : img.width ≤ i / 4 := by
      have := Nat.mul_le_mul_left img.width hy1
      simp only [Nat.mul_one] at this
      omega
    have hple : 1 ≤ i / 4 := by
      have := Nat.mod_le (i / 4) img.width
      omega
    obtain ⟨N, hN⟩ : ∃ N, img.width * img.height = N := ⟨_, rfl⟩
    rw [hN] at hi' hp1 hpw
    rw [contrastPass_uniform img g hg i (by rw [hN]; omega) hc',
        contrastPass_uniform img g hg (i - 4) (by rw [hN]; omega) (by omega),
        contrastPass_uniform img g hg (i + 4) (by rw [hN]; omega) (by omega),
        contrastPass_uniform img g hg (i - img.width * 4) (by rw [hN]; omega) (by omega),
        contrastPass_uniform img g hg (i + img.width * 4) (by rw [hN]; omega) (by omega)]
    have hring : 5 * ((contrastByte g : ℕ) : ℚ) - ((contrastByte g : ℕ) : ℚ)
        - ((contrastByte g : ℕ) : ℚ) - ((contrastByte g : ℕ) : ℚ)
        - ((contrastByte g : ℕ) : ℚ) = ((contrastByte g : ℕ) : ℚ) := by ring
    rw [hring, u8clamp_natCast _ (contrastByte_le_255 g)]
  · exact contrastPass_uniform img g hg i hi hc

/-- C5: `enhanceImage` never changes pixel dimensions (for every image);
and on a uniform-gray input every RGB channel byte of the output equals the
contrast formula `(g − 128)·1.25 + 128` stored into the clamped byte array
— in particular at exactly mid-gray (128) the value is unchanged. -/
theorem enhance_spec (img : ImageData) (g : ℕ)
    (hg : ∀ i, i < img.width * img.height * 4 → i % 4 < 3 → img.data i = g) :
    (∀ im : ImageData,
      (enhanceImage im).width = im.width ∧ (enhanceImage im).height = im.height) ∧
    (∀ i, i < img.width * img.height * 4 → i % 4 < 3 →
      (enhanceImage img).data i = u8clamp (((g : ℚ) - 128) * (5 / 4) + 128)) ∧
    contrastByte 128 = 128 := by
  refine ⟨fun im => ⟨rfl, rfl⟩, ?_, ?_⟩
  · intro i hi hc
    exact enhance_uniform_data img g hg i hi hc
  · rw [contrastByte_eval]
    decide

/-- Witness for C5 on the concrete 3×3 mid-gray image. -/
theorem enhance_spec_witness :
    (∀ im : ImageData,
      (enhanceImage im).width = im.width ∧ (enhanceImage im).height = im.height) ∧
    (∀ i, i < (uniformGray3 128).width * (uniformGray3 128).height * 4 → i % 4 < 3 →
      (enhanceImage (uniformGray3 128)).data i =
        u8clamp ((((128 : ℕ) : ℚ) - 128) * (5 / 4) + 128)) ∧
    contrastByte 128 = 128 :=
  enhance_spec (uniformGray3 128) 128 (fun i _ hc => by
    show (if i % 4 = 3 then 255 else 128) = 128
    rw [if_neg (by omega)])

/-- C6 counterexample: `enhanceImage` is not idempotent — on the uniform
gray-100 3×3 image the center pixel is 93 after one pass but 84 after two
passes (the contrast stretch compounds). -/
theorem enhance_not_idempotent :
    (enhanceImage (enhanceImage (uniformGray3 100))).data 16 ≠
      (enhanceImage (uniformGray3 100)).data 16 := by
  have hg100 : ∀ i, i < (uniformGray3 100).width * (uniformGray3 100).height * 4 →
      i % 4 < 3 → (uniformGray3 100).data i = 100 := by
    intro i hi hc
    show (if i % 4 = 3 then 255 else 100) = 100
    rw [if_neg (by omega)]
  have h1 := enhance_uniform_data (uniformGray3 100) 100 hg100
  have h2img : ∀ i,
      i < (enhanceImage (uniformGray3 100)).width *
        (enhanceImage (uniformGray3 100)).height * 4 →
      i % 4 < 3 → (enhanceImage (uniformGray3 100)).data i = contrastByte 100 := by
    intro i hi hc
    exact h1 i hi hc
  have h2 := enhance_uniform_data (enhanceImage (uniformGray3 100)) (contrastByte 100)
    h2img 16 (by decide) (by decide)
  rw [h2, h1 16 (by decide) (by decide)]
  have e1 : contrastByte 100 = 93 := by
    rw [contrastByte_eval]
    decide
  have e2 : contrastByte 93 = 84 := by
    rw [contrastByte_eval]
    decide
  rw [e1, e2]
  decide

/-- C6 amended: `downscaleImageIfNeeded` is idempotent (its output always
fits the bound, so a second application is the identity); `enhanceImage` is
a pure function of its input but is not idempotent — a second application
compounds the contrast/sharpen adjustment. -/
theorem downscale_idempotent (encode : ℕ → ℕ → List ℕ) (img : Img)
    (maxWidth maxHeight : ℕ) (hw : 0 < img.width) (hh : 0 < img.height) :
    downscaleImageIfNeeded encode (downscaleImageIfNeeded encode img maxWidth maxHeight)
      maxWidth maxHeight = downscaleImageIfNeeded encode img maxWidth maxHeight := by
  have hfits := downscale_output_fits encode img maxWidth maxHeight hw hh
  conv_lhs => rw [downscaleImageIfNeeded]
  rw [if_pos hfits]

/-- Witness for C6's amended statement at a concrete oversized image. -/
theorem downscale_idempotent_witness :
    downscaleImageIfNeeded sampleEncode
      (downscaleImageIfNeeded sampleEncode sampleLargeImg 2000 2000) 2000 2000 =
      downscaleImageIfNeeded sampleEncode sampleLargeImg 2000 2000 :=
  downscale_idempotent sampleEncode sampleLargeImg 2000 2000 (by decide) (by decide)
